import Mathlib

/-!
Shallow embedding of the jobs-minimal repository (src/docsim.py and
src/main.py) and proofs of the specified properties.

The scorer (docsim.py, rate_text) is a pure function and is embedded
directly, with Python floats modelled as rationals (all quantities
involved are exact small rationals, so this is value-faithful).

The orchestrator (main.py: extractJobs, get_job_info, extractDescription,
get_job_cards) performs network I/O and HTML parsing; those effects are
abstracted into oracle functions passed as parameters, while the control
flow — the required-field accesses that raise, the broad try/except
blocks, and the point at which exceptions from worker threads are
re-raised when the executor.map iterator is consumed by list() — is
embedded with the Except monad.  The worker tasks share no mutable
state and executor.map yields results (and re-raises worker exceptions)
in input order after the with-block has joined all threads, so the
sequential left-to-right traversal mapE is the faithful denotation of
list(executor.map(f, xs)).
-/

/-- A character matched by the regex class \w in docsim.py's tokenizer
(ASCII model: letters, digits, underscore). -/
def isWordChar (c : Char) : Bool := c.isAlphanum || c = '_'

/-- Model of Python str.lower(): lower-case every character
(ASCII model). -/
def lowerStr (s : String) : String := String.mk (s.data.map Char.toLower)

/-- The tokenizer used by docsim.rate_text:
re.findall of word-boundary-delimited runs of \w characters, i.e. the
maximal runs of word characters of the string, in order. -/
def tokenize (s : String) : List String :=
  let step := fun (acc : List (List Char) × List Char) (c : Char) =>
    if isWordChar c then (acc.1, acc.2 ++ [c])
    else if acc.2.isEmpty then (acc.1, [])
    else (acc.1 ++ [acc.2], [])
  let p := s.data.foldl step ([], [])
  (if p.2.isEmpty then p.1 else p.1 ++ [p.2]).map (fun cs => String.mk cs)

/-- Embedding of docsim.rate_text: lower-case the text, tokenize it,
count token occurrences (Counter), sum the counts of the lower-cased
keywords, divide by the total token count (with 0 instead of the
division when there are no tokens) and scale by 5.  A Counter lookup of
a missing key is 0, which List.count gives directly. -/
def rate_text (plavra : List String) (text : String) : ℚ :=
  let words := tokenize (lowerStr text)
  let cumulative_frequency : ℕ :=
    (plavra.map (fun word => words.count (lowerStr word))).sum
  let max_cumulative_frequency : ℕ := words.length
  let normalized_rating : ℚ :=
    if max_cumulative_frequency ≠ 0 then
      (cumulative_frequency : ℚ) / (max_cumulative_frequency : ℚ)
    else 0
  normalized_rating * 5

/-- Python's builtin round() on an exact rational:
round half to even. -/
def pyRound (q : ℚ) : ℤ :=
  let f := ⌊q⌋
  if q - f < 1/2 then f
  else if q - f > 1/2 then f + 1
  else if f % 2 = 0 then f else f + 1

/-- Embedding of main.rate_job: a falsy (empty) keyword list
short-circuits to rating 0 without invoking the scorer; otherwise the
rate_text score rounded with Python's round(). -/
def rate_job (job_description : String) (plavras : List String) : ℤ :=
  if plavras.isEmpty then 0
  else pyRound (rate_text plavras job_description)

/-- Embedding of main.create_time_param.  The function assigns TPeriod
only in the four recognized branches; on any other input the final
`return TPeriod` raises UnboundLocalError, modelled here as `none`. -/
def create_time_param (time : String) : Option String :=
  if time = "past 24 hours" then some "&f_TPR=r86400"
  else if time = "past week" then some "&f_TPR=r604800"
  else if time = "past month" then some "&f_TPR=r2592000"
  else if time = "any time" then some ""
  else none

/-- One listing entry (a BeautifulSoup job card) as observed by
main.get_job_info: each field access may fail (`none`) when the
corresponding element is absent from the markup. -/
structure Card where
  title : Option String
  url : Option String
  location : Option String
  company : Option String
  postedTime : Option String
deriving DecidableEq

/-- The dictionary built by main.get_job_info for one job posting.
Python's `dayPosted = False` default is modelled as `none`. -/
structure JobRecord where
  jobTitle : String
  companyName : String
  dayPosted : Option String
  jobURL : String
  rating : ℤ
  location : String
  jobDesc : String
deriving DecidableEq

/-- Embedding of main.extractDescription over an abstracted page fetch.
The argument is the outcome of fetching and parsing the posting page:
`none` when the GET or the parse raises (the broad except returns the
empty dict, i.e. no "description" key), `some none` when the page
parses but the description div is absent, `some (some t)` when the div
is present with stripped text t. -/
def extractDescription (page : Option (Option String)) : Option String :=
  match page with
  | none => none
  | some none => some "no description specified"
  | some (some t) => some t

/-- Embedding of main.get_job_info over a network oracle `net` (what
extractDescription's fetch observes for each posting URL).  A missing
required title or URL raises (the unguarded .find accesses), and a
missing "description" key in extractDescription's result raises KeyError
at jobDesc['description']; both are fatal for this entry (`Except.error`).
Optional fields get the documented defaults. -/
def get_job_info (net : String → Option (Option String)) (card : Card)
    (plavras : List String) : Except Unit JobRecord :=
  match card.title with
  | none => .error ()
  | some jobTitle =>
    match card.url with
    | none => .error ()
    | some jobURL =>
      let location := (card.location).getD "location not given"
      match extractDescription (net jobURL) with
      | none => .error ()
      | some jobDesc =>
        let companyName := (card.company).getD "Not specified"
        let dayPosted := card.postedTime
        let rating := rate_job jobDesc plavras
        .ok ⟨jobTitle, companyName, dayPosted, jobURL, rating, location, jobDesc⟩

/-- Denotation of `list(executor.map(f, xs))` for independent tasks:
results are yielded in input order once all threads have joined, and the
first (in input order) worker exception is re-raised during iteration. -/
def mapE {α β : Type} (f : α → Except Unit β) : List α → Except Unit (List β)
  | [] => .ok []
  | a :: as =>
    match f a with
    | .error e => .error e
    | .ok b =>
      match mapE f as with
      | .error e => .error e
      | .ok bs => .ok (b :: bs)

/-- Embedding of main.extractJobs over a listing oracle `get_cards`
(the outcome of main.get_job_cards for each search URL: `Except.error`
when its unguarded requests.get raises) and the network oracle `net`
for the detail pages.  Phase 1 fans out get_job_cards and flattens; an
exception there is caught by the broad except BEFORE total_cards is
assigned, so the final `return [results, total_cards]` raises
UnboundLocalError, modelled as `Except.error`.  With no cards it
returns ([], 0).  Phase 2 fans out get_job_info; an exception there is
re-raised at list(job_data), caught by the broad except AFTER
total_cards was assigned, so nothing is ever appended to results and
([], total_cards) is returned. -/
def extractJobs (get_cards : String → Except Unit (List Card))
    (net : String → Option (Option String)) (urls : List String)
    (plavras : List String) : Except Unit (List JobRecord × ℕ) :=
  match mapE get_cards urls with
  | .error e => .error e
  | .ok cardLists =>
    let cards := cardLists.flatten
    let total_cards := cards.length
    if cards.length = 0 then .ok ([], 0)
    else
      match mapE (fun card => get_job_info net card plavras) cards with
      | .ok job_data_list => .ok (job_data_list, total_cards)
      | .error _ => .ok ([], total_cards)

/-- Concrete fixtures used to instantiate the orchestrator theorems. -/
def cardFull : Card := ⟨some "T2", some "u2", some "L2", some "C2", some "d2"⟩

def cardNoTitle : Card := ⟨none, some "u1", some "L1", some "C1", some "d1"⟩

def recFull : JobRecord := ⟨"T2", "C2", some "d2", "u2", 0, "L2", "desc"⟩

def netConst : String → Option (Option String) := fun _ => some (some "desc")

def listingTwo : String → Except Unit (List Card) := fun _ => .ok [cardNoTitle, cardFull]

def listingOne : String → Except Unit (List Card) := fun _ => .ok [cardFull]

lemma sum_map_add_nat {α : Type} (l : List α) (f g : α → ℕ) :
    (l.map (fun a => f a + g a)).sum = (l.map f).sum + (l.map g).sum := by
  induction l with
  | nil => rfl
  | cons a l ih =>
    simp only [List.map_cons, List.sum_cons, ih]
    omega

lemma sum_ite_eq_zero_of_not_mem (ks : List String) (x : String) (hx : x ∉ ks) :
    (ks.map (fun k => if x == k then (1 : ℕ) else 0)).sum = 0 := by
  induction ks with
  | nil => rfl
  | cons k ks ih =>
    simp only [List.map_cons, List.sum_cons]
    have hk : ¬ (x == k) = true := by
      simp only [beq_iff_eq]
      rintro rfl
      exact hx (List.mem_cons_self _ _)
    rw [if_neg hk, ih (fun h => hx (List.mem_cons_of_mem _ h))]

lemma sum_ite_le_one (ks : List String) (x : String) :
    ks.Nodup → (ks.map (fun k => if x == k then (1 : ℕ) else 0)).sum ≤ 1 := by
  induction ks with
  | nil => intro _; simp
  | cons k ks ih =>
    intro h
    rcases List.nodup_cons.mp h with ⟨hk, hnd⟩
    simp only [List.map_cons, List.sum_cons]
    by_cases hkx : (x == k) = true
    · rw [if_pos hkx]
      have hxks : x ∉ ks := by
        rw [beq_iff_eq] at hkx
        subst hkx
        exact hk
      rw [sum_ite_eq_zero_of_not_mem ks x hxks]
    · rw [if_neg hkx]
      simpa using ih hnd

lemma sum_counts_le_length (ks : List String) (h : ks.Nodup) (l : List String) :
    (ks.map (fun k => List.count k l)).sum ≤ l.length := by
  induction l with
  | nil => simp
  | cons x l ih =>
    simp only [List.count_cons]
    rw [sum_map_add_nat]
    have h1 := sum_ite_le_one ks x h
    simp only [List.length_cons]
    omega

lemma rate_text_eq_zero_of_count_zero (plavra : List String) (text : String)
    (h : ∀ w ∈ plavra, List.count (lowerStr w) (tokenize (lowerStr text)) = 0) :
    rate_text plavra text = 0 := by
  simp only [rate_text]
  have hz : (plavra.map
      (fun word => List.count (lowerStr word) (tokenize (lowerStr text)))).sum = 0 := by
    rw [List.sum_eq_zero]
    intro x hx
    rcases List.mem_map.mp hx with ⟨w, hw, rfl⟩
    exact h w hw
  rw [hz]
  split_ifs with hn
  · norm_num
  · norm_num

lemma mapE_length {α β : Type} (f : α → Except Unit β) (l : List α) (bs : List β)
    (h : mapE f l = .ok bs) : bs.length = l.length := by
  induction l generalizing bs with
  | nil =>
    simp only [mapE] at h
    cases h
    rfl
  | cons a as ih =>
    simp only [mapE] at h
    cases hfa : f a with
    | error e => rw [hfa] at h; cases h
    | ok b =>
      rw [hfa] at h
      cases hrest : mapE f as with
      | error e => rw [hrest] at h; cases h
      | ok bs2 =>
        rw [hrest] at h
        cases h
        simp only [List.length_cons, ih bs2 hrest]

lemma mapE_eq_error {α β : Type} (f : α → Except Unit β) (l : List α) (a : α)
    (ha : a ∈ l) (hfa : f a = .error ()) : mapE f l = .error () := by
  induction l with
  | nil => cases ha
  | cons x xs ih =>
    rcases List.mem_cons.mp ha with rfl | hmem
    · simp [mapE, hfa]
    · simp only [mapE]
      cases hfx : f x with
      | error e => cases e; rfl
      | ok b => rw [ih hmem]

/-- C1 (amended): for every text, the rate_text score is nonnegative,
and provided the lower-cased keyword list has no duplicates it is also
at most 5.  (With duplicated keywords the cumulative frequency can
exceed the token count, so the score can exceed 5.) -/
theorem rate_text_bounds (plavra : List String) (text : String)
    (h : (plavra.map lowerStr).Nodup) :
    0 ≤ rate_text plavra text ∧ rate_text plavra text ≤ 5 := by
  simp only [rate_text]
  have hle : (plavra.map
      (fun word => List.count (lowerStr word) (tokenize (lowerStr text)))).sum
      ≤ (tokenize (lowerStr text)).length := by
    have hmm : plavra.map
        (fun word => List.count (lowerStr word) (tokenize (lowerStr text)))
        = (plavra.map lowerStr).map
          (fun k => List.count k (tokenize (lowerStr text))) := by
      rw [List.map_map]
      rfl
    rw [hmm]
    exact sum_counts_le_length _ h _
  split_ifs with hn
  · constructor
    · positivity
    · have hpos : (0 : ℚ) < ((tokenize (lowerStr text)).length : ℚ) := by
        exact_mod_cast Nat.pos_of_ne_zero hn
      have hdiv : ((plavra.map
          (fun word => List.count (lowerStr word) (tokenize (lowerStr text)))).sum : ℚ)
          / ((tokenize (lowerStr text)).length : ℚ) ≤ 1 := by
        rw [div_le_one hpos]
        exact_mod_cast hle
      nlinarith [hdiv]
  · norm_num

/-- C1 counterexample: with the duplicated keyword list ["go", "go"]
and the text "go", rate_text returns 10, which is outside [0, 5]. -/
theorem rate_text_duplicate_keywords_cex :
    rate_text ["go", "go"] "go" = 10 ∧ ¬ rate_text ["go", "go"] "go" ≤ 5 := by
  have ht : tokenize (lowerStr "go") = ["go"] := by decide
  have hc : List.count (lowerStr "go") ["go"] = 1 := by decide
  have h10 : rate_text ["go", "go"] "go" = 10 := by
    simp only [rate_text, ht, List.map_cons, List.map_nil, List.sum_cons,
      List.sum_nil, hc, List.length_cons, List.length_nil]
    norm_num
  exact ⟨h10, by rw [h10]; norm_num⟩

/-- Witness for rate_text_bounds at a concrete duplicate-free keyword
list and text. -/
theorem rate_text_bounds_witness :
    0 ≤ rate_text ["python"] "python rocks" ∧
    rate_text ["python"] "python rocks" ≤ 5 :=
  rate_text_bounds ["python"] "python rocks" (by decide)

/-- C7: the scorer matches keywords only as whole tokens, never as
substrings: when a keyword's lower-casing is not itself one of the
text's tokens its contribution is zero, so if that holds for every
keyword the score is 0. -/
theorem rate_text_whole_tokens_only (plavra : List String) (text : String)
    (h : ∀ w ∈ plavra, lowerStr w ∉ tokenize (lowerStr text)) :
    rate_text plavra text = 0 :=
  rate_text_eq_zero_of_count_zero plavra text
    (fun w hw => List.count_eq_zero.mpr (h w hw))

/-- Witness for rate_text_whole_tokens_only: the keyword "cat" occurs
in "concatenate" only as a substring of the single token, so the score
is 0. -/
theorem rate_text_whole_tokens_only_witness :
    rate_text ["cat"] "concatenate" = 0 :=
  rate_text_whole_tokens_only ["cat"] "concatenate" (by decide)

/-- C8: scoring is case-insensitive: two calls whose keywords and text
agree up to character case (i.e. after lower-casing) return the same
score. -/
theorem rate_text_case_insensitive (p1 p2 : List String) (t1 t2 : String)
    (hp : p1.map lowerStr = p2.map lowerStr) (ht : lowerStr t1 = lowerStr t2) :
    rate_text p1 t1 = rate_text p2 t2 := by
  simp only [rate_text, ht]
  have hmap : p1.map (fun w => List.count (lowerStr w) (tokenize (lowerStr t2)))
      = p2.map (fun w => List.count (lowerStr w) (tokenize (lowerStr t2))) := by
    have e1 : p1.map (fun w => List.count (lowerStr w) (tokenize (lowerStr t2)))
        = (p1.map lowerStr).map (fun k => List.count k (tokenize (lowerStr t2))) := by
      rw [List.map_map]
      rfl
    have e2 : p2.map (fun w => List.count (lowerStr w) (tokenize (lowerStr t2)))
        = (p2.map lowerStr).map (fun k => List.count k (tokenize (lowerStr t2))) := by
      rw [List.map_map]
      rfl
    rw [e1, e2, hp]
  rw [hmap]

/-- Witness for rate_text_case_insensitive at the spec's example:
score(["Go"], "go go GO") = score(["go"], "GO go go"). -/
theorem rate_text_case_insensitive_witness :
    rate_text ["Go"] "go go GO" = rate_text ["go"] "GO go go" :=
  rate_text_case_insensitive ["Go"] ["go"] "go go GO" "GO go go"
    (by decide) (by decide)

/-- C9: when the text tokenizes to no tokens the score is 0, produced
by the zero-token branch rather than by the division. -/
theorem rate_text_zero_tokens (plavra : List String) (text : String)
    (h : tokenize (lowerStr text) = []) : rate_text plavra text = 0 := by
  simp only [rate_text, h, List.length_nil]
  norm_num

/-- Witness for rate_text_zero_tokens: the empty text has no tokens and
scores 0. -/
theorem rate_text_zero_tokens_witness : rate_text ["python"] "" = 0 :=
  rate_text_zero_tokens ["python"] "" (by decide)

/-- C10: the score is additive in the keyword list: scoring the
concatenation of two keyword lists equals the sum of the two scores. -/
theorem rate_text_additive (p1 p2 : List String) (text : String) :
    rate_text (p1 ++ p2) text = rate_text p1 text + rate_text p2 text := by
  simp only [rate_text, List.map_append, List.sum_append]
  split_ifs with h
  · push_cast
    ring
  · norm_num

/-- C4: whenever extractJobs returns a pair (records, totalCount), the
totalCount (the phase-1 flattened entry count) is at least the number of
returned records: phase-2 failures only remove records. -/
theorem extractJobs_totalCount_ge (get_cards : String → Except Unit (List Card))
    (net : String → Option (Option String)) (urls : List String)
    (plavras : List String) (recs : List JobRecord) (n : ℕ)
    (h : extractJobs get_cards net urls plavras = .ok (recs, n)) :
    recs.length ≤ n := by
  unfold extractJobs at h
  split at h
  · cases h
  next cardLists heq =>
    dsimp only at h
    split at h
    · simp only [Except.ok.injEq, Prod.mk.injEq] at h
      obtain ⟨hr, hn2⟩ := h
      rw [← hr, ← hn2]
      simp
    · split at h
      next jl heq2 =>
        simp only [Except.ok.injEq, Prod.mk.injEq] at h
        obtain ⟨hr, hn2⟩ := h
        rw [← hr, ← hn2]
        rw [mapE_length _ _ _ heq2]
      next e heq2 =>
        simp only [Except.ok.injEq, Prod.mk.injEq] at h
        obtain ⟨hr, hn2⟩ := h
        rw [← hr]
        simp

/-- Witness for extractJobs_totalCount_ge: a one-URL, one-card run in
which extraction succeeds returns one record with totalCount 1. -/
theorem extractJobs_totalCount_ge_witness : ([recFull] : List JobRecord).length ≤ 1 :=
  extractJobs_totalCount_ge listingOne netConst ["s"] [] [recFull] 1 rfl

/-- C2 counterexample: in the batch [cardNoTitle, cardFull] the entry
cardFull parses successfully on its own, yet because its sibling
cardNoTitle raises on the required title, extractJobs returns an empty
records list (with totalCount 2) — the failure is not isolated to the
failing entry. -/
theorem extractJobs_sibling_loss_cex :
    get_job_info netConst cardFull [] = .ok recFull ∧
    get_job_info netConst cardNoTitle [] = .error () ∧
    extractJobs listingTwo netConst ["s"] [] = .ok ([], 2) :=
  ⟨rfl, rfl, rfl⟩

/-- C2 (amended): an entry whose required title or posting URL fails to
parse is indeed absent from the returned records list, but the failure
is not isolated: the exception is re-raised when the phase-2 results are
collected and the orchestrator's broad except then discards the records
of every sibling entry as well, returning ([], totalCount). -/
theorem extractJobs_entry_failure_drops_batch
    (get_cards : String → Except Unit (List Card))
    (net : String → Option (Option String)) (urls : List String)
    (plavras : List String) (cardLists : List (List Card)) (c : Card)
    (h1 : mapE get_cards urls = .ok cardLists)
    (hc : c ∈ cardLists.flatten)
    (hf : get_job_info net c plavras = .error ()) :
    extractJobs get_cards net urls plavras = .ok ([], cardLists.flatten.length) := by
  unfold extractJobs
  rw [h1]
  dsimp only
  have hz : ¬ cardLists.flatten.length = 0 := by
    intro h0
    rw [List.length_eq_zero] at h0
    rw [h0] at hc
    cases hc
  rw [if_neg hz, mapE_eq_error _ _ c hc hf]

/-- Witness for extractJobs_entry_failure_drops_batch at the concrete
two-card batch. -/
theorem extractJobs_entry_failure_drops_batch_witness :
    extractJobs listingTwo netConst ["s"] []
      = .ok ([], ([[cardNoTitle, cardFull]] : List (List Card)).flatten.length) :=
  extractJobs_entry_failure_drops_batch listingTwo netConst ["s"] []
    [[cardNoTitle, cardFull]] cardNoTitle rfl (by decide) rfl

/-- C3 (code evaluated at the failing input): when every listing fetch
of phase 1 raises, the broad except catches the exception before
total_cards is assigned, and the final return statement raises
UnboundLocalError — extractJobs propagates an error to the caller
instead of returning ([], 0). -/
theorem extractJobs_phase1_outage_raises :
    extractJobs (fun _ => .error ()) netConst
      ["https://www.linkedin.com/jobs/search?keywords=a"] [] = .error () := rfl

/-- C6 (amended): create_time_param maps the four recognized literals to
their LinkedIn time-filter parameters, and on every unrecognized value
it produces no value at all (the return statement raises
UnboundLocalError) instead of an empty time filter. -/
theorem create_time_param_mapping :
    create_time_param "past 24 hours" = some "&f_TPR=r86400" ∧
    create_time_param "past week" = some "&f_TPR=r604800" ∧
    create_time_param "past month" = some "&f_TPR=r2592000" ∧
    create_time_param "any time" = some "" ∧
    ∀ s : String, s ≠ "past 24 hours" → s ≠ "past week" → s ≠ "past month" →
      s ≠ "any time" → create_time_param s = none := by
  refine ⟨by decide, by decide, by decide, by decide, ?_⟩
  intro s h1 h2 h3 h4
  simp only [create_time_param, if_neg h1, if_neg h2, if_neg h3, if_neg h4]

/-- C6 counterexample: the unrecognized value "yesterday" does not
propagate an empty time filter; no value is produced at all. -/
theorem create_time_param_unrecognized_cex :
    create_time_param "yesterday" = none ∧
    create_time_param "yesterday" ≠ some "" := by
  exact ⟨by decide, by decide⟩

/-- Witness for create_time_param_mapping at a concrete unrecognized
value. -/
theorem create_time_param_mapping_witness : create_time_param "last year" = none :=
  create_time_param_mapping.2.2.2.2 "last year" (by decide) (by decide)
    (by decide) (by decide)

/-- C5: the externally reported rating is the raw score rounded to the
nearest integer: rate_job on "I love python and more python" with
keywords ["python"] gives round(5 * 2/6) = 2, and on
"no description specified" gives 0. -/
theorem rate_job_example_values :
    rate_job "I love python and more python" ["python"] = 2 ∧
    rate_job "no description specified" ["python"] = 0 := by
  constructor
  · have ht : tokenize (lowerStr "I love python and more python")
        = ["i", "love", "python", "and", "more", "python"] := by decide
    have hcnt : List.count (lowerStr "python")
        ["i", "love", "python", "and", "more", "python"] = 2 := by decide
    have hrt : rate_text ["python"] "I love python and more python" = 5/3 := by
      simp only [rate_text, ht, List.map_cons, List.map_nil, List.sum_cons,
        List.sum_nil, hcnt, List.length_cons, List.length_nil]
      norm_num
    have hf : ⌊(5 : ℚ)/3⌋ = 1 := by
      rw [Int.floor_eq_iff]
      constructor <;> norm_num
    simp only [rate_job, List.isEmpty_cons, hrt, pyRound, hf]
    norm_num
  · have ht2 : tokenize (lowerStr "no description specified")
        = ["no", "description", "specified"] := by decide
    have hcnt2 : List.count (lowerStr "python")
        ["no", "description", "specified"] = 0 := by decide
    have hrt2 : rate_text ["python"] "no description specified" = 0 := by
      simp only [rate_text, ht2, List.map_cons, List.map_nil, List.sum_cons,
        List.sum_nil, hcnt2, List.length_cons, List.length_nil]
      norm_num
    have hf0 : ⌊(0 : ℚ)⌋ = 0 := by norm_num
    simp only [rate_job, List.isEmpty_cons, hrt2, pyRound, hf0]
    norm_num
